import Mathlib

/-
Shallow embedding of src/bplus.go (package bplus), a B+ tree whose node-level
operations Search, SearchRange, Insert, Update and Delete are stubs that
return nil for both node kinds.  Go byte slices become Lean lists of naturals;
a nil Go slice slot is modelled as none; a Go error is an Option String that
the code only ever instantiates as nil (none); panics become a none result of
the constructor.  Methods with pointer receivers are embedded as explicit
state passing: a mutating method returns the (possibly updated) receiver
together with its error result.
-/

namespace BPlus

/-- Key is a byte slice in the source; bytes become naturals. -/
abbrev Key := List Nat

/-- Value is a byte slice in the source; bytes become naturals. -/
abbrev Value := List Nat

/-- A Go error result; the source only ever returns nil, modelled as none. -/
abbrev Err := Option String

/-- fillState from the source: empty, partially full, or full. -/
inductive fillState where
  | nodeEmpty
  | nodePartiallyFull
  | nodeFull
deriving DecidableEq

/-- A B+ tree node: leafNode carries its order, key slots, value slots and an
optional next-leaf link; internalNode carries its order, key slots and child
slots.  A nil Go slot is none. -/
inductive node where
  | leafNode (order : Int) (keys : List (Option Key)) (pointers : List (Option Value)) (next : Option node)
  | internalNode (order : Int) (keys : List (Option Key)) (pointers : List (Option node))

/-- BPlusTree from the source: the order and the root node. -/
structure BPlusTree where
  order : Int
  root : node

/-- newLeafNode: a leaf with order-many nil key slots and nil value slots and
no next link. -/
def newLeafNode (order : Int) : node :=
  node.leafNode order (List.replicate order.toNat none) (List.replicate order.toNat none) none

/-- newInternalNode: order-many nil key slots and order+1 nil child slots. -/
def newInternalNode (order : Int) : node :=
  node.internalNode order (List.replicate order.toNat none) (List.replicate (order + 1).toNat none)

/-- NewBPlusTree: panics when order <= 0 (modelled as none), otherwise a tree
of that order whose root is a fresh empty leaf. -/
def NewBPlusTree (order : Int) : Option BPlusTree :=
  if order ≤ 0 then none
  else some { order := order, root := newLeafNode order }

/-- Order returns the configured order of the tree. -/
def BPlusTree.Order (t : BPlusTree) : Int := t.order

/-- The loop shared by both getFillState methods: walk the key slots with
their index, skip non-nil slots, and classify at the first nil slot by
whether its index is zero; a walk that never meets nil reports full. -/
def fillLoop : List (Option Key) → Nat → fillState
  | [], _ => fillState.nodeFull
  | some _ :: rest, i => fillLoop rest (i + 1)
  | none :: _, 0 => fillState.nodeEmpty
  | none :: _, _ + 1 => fillState.nodePartiallyFull

/-- getFillState for either node kind (the two methods have identical bodies). -/
def node.getFillState : node → fillState
  | node.leafNode _ keys _ _ => fillLoop keys 0
  | node.internalNode _ keys _ => fillLoop keys 0

/-- The loop of leafNode.GetKeys: collect key slots until the first nil. -/
def leafCollectKeys : List (Option Key) → List Key
  | [] => []
  | none :: _ => []
  | some k :: rest => k :: leafCollectKeys rest

/-- The loop of leafNode.GetValues: collect value slots until the first nil. -/
def leafCollectValues : List (Option Value) → List Value
  | [] => []
  | none :: _ => []
  | some v :: rest => v :: leafCollectValues rest

mutual

/-- GetKeys: a leaf collects its own keys up to the first nil slot; an
internal node concatenates its children keys up to the first nil pointer. -/
def node.GetKeys : node → List Key × Err
  | node.leafNode _ keys _ _ => (leafCollectKeys keys, none)
  | node.internalNode _ _ ptrs => node.getKeysLoop [] ptrs
termination_by n => sizeOf n

/-- The loop of internalNode.GetKeys: accumulate each child keys, stop at the
first nil pointer, and on a child error return (nil, err). -/
def node.getKeysLoop : List Key → List (Option node) → List Key × Err
  | acc, [] => (acc, none)
  | acc, none :: _ => (acc, none)
  | acc, some p :: rest =>
    match node.GetKeys p with
    | (ks, none) => node.getKeysLoop (acc ++ ks) rest
    | (_, some e) => ([], some e)
termination_by acc l => sizeOf l

end

mutual

/-- GetValues: a leaf collects its own values up to the first nil slot; an
internal node concatenates its children values up to the first nil pointer. -/
def node.GetValues : node → List Value × Err
  | node.leafNode _ _ ptrs _ => (leafCollectValues ptrs, none)
  | node.internalNode _ _ ptrs => node.getValuesLoop [] ptrs
termination_by n => sizeOf n

/-- The loop of internalNode.GetValues: accumulate each child values, stop at
the first nil pointer, and on a child error return (nil, err). -/
def node.getValuesLoop : List Value → List (Option node) → List Value × Err
  | acc, [] => (acc, none)
  | acc, none :: _ => (acc, none)
  | acc, some p :: rest =>
    match node.GetValues p with
    | (vs, none) => node.getValuesLoop (acc ++ vs) rest
    | (_, some e) => ([], some e)
termination_by acc l => sizeOf l

end

/-- Search: both node kinds are stubs returning (nil, nil). -/
def node.Search (n : node) (k : Key) : Option Value × Err :=
  match n with
  | node.leafNode .. => (none, none)
  | node.internalNode .. => (none, none)

/-- SearchRange: both node kinds are stubs returning (nil, nil); the nil
value slice is the empty list. -/
def node.SearchRange (n : node) (k1 k2 : Key) : List Value × Err :=
  match n with
  | node.leafNode .. => ([], none)
  | node.internalNode .. => ([], none)

/-- Insert: both node kinds are stubs that mutate nothing and return nil. -/
def node.Insert (n : node) (k : Key) (v : Value) : node × Err :=
  match n with
  | node.leafNode .. => (n, none)
  | node.internalNode .. => (n, none)

/-- Update: both node kinds are stubs that mutate nothing and return nil. -/
def node.Update (n : node) (k : Key) (v : Value) : node × Err :=
  match n with
  | node.leafNode .. => (n, none)
  | node.internalNode .. => (n, none)

/-- Delete: both node kinds are stubs that mutate nothing and return nil. -/
def node.Delete (n : node) (k : Key) : node × Err :=
  match n with
  | node.leafNode .. => (n, none)
  | node.internalNode .. => (n, none)

/-- BPlusTree.GetKeys delegates to the root. -/
def BPlusTree.GetKeys (t : BPlusTree) : List Key × Err := t.root.GetKeys

/-- BPlusTree.GetValues delegates to the root. -/
def BPlusTree.GetValues (t : BPlusTree) : List Value × Err := t.root.GetValues

/-- BPlusTree.Search delegates to the root. -/
def BPlusTree.Search (t : BPlusTree) (k : Key) : Option Value × Err := t.root.Search k

/-- BPlusTree.SearchRange delegates to the root. -/
def BPlusTree.SearchRange (t : BPlusTree) (k1 k2 : Key) : List Value × Err :=
  t.root.SearchRange k1 k2

/-- BPlusTree.Insert delegates to the root, keeping the resulting root. -/
def BPlusTree.Insert (t : BPlusTree) (k : Key) (v : Value) : BPlusTree × Err :=
  match t.root.Insert k v with
  | (r, e) => ({ t with root := r }, e)

/-- BPlusTree.Update delegates to the root, keeping the resulting root. -/
def BPlusTree.Update (t : BPlusTree) (k : Key) (v : Value) : BPlusTree × Err :=
  match t.root.Update k v with
  | (r, e) => ({ t with root := r }, e)

/-- BPlusTree.Delete delegates to the root, keeping the resulting root. -/
def BPlusTree.Delete (t : BPlusTree) (k : Key) : BPlusTree × Err :=
  match t.root.Delete k with
  | (r, e) => ({ t with root := r }, e)

/-- Observation used by the spec: whether a node is a leaf node. -/
def node.isLeaf : node → Bool
  | node.leafNode .. => true
  | node.internalNode .. => false

/-- Lexicographic order on byte-sequence keys, as bytes.Compare orders Go
byte slices. -/
def keyLt : Key → Key → Bool
  | [], [] => false
  | [], _ :: _ => true
  | _ :: _, [] => false
  | a :: as, b :: bs => if a < b then true else if b < a then false else keyLt as bs

/-- keyLe a b holds when a is not lexicographically greater than b. -/
def keyLe (a b : Key) : Bool := !(keyLt b a)

/-- A key sequence is non-decreasing when every adjacent pair is keyLe. -/
def nonDecreasing : List Key → Bool
  | [] => true
  | [_] => true
  | a :: b :: rest => keyLe a b && nonDecreasing (b :: rest)

/-- One mutating call on the tree. -/
inductive Op where
  | ins (k : Key) (v : Value)
  | upd (k : Key) (v : Value)
  | del (k : Key)

/-- Apply one mutating call, keeping the resulting tree state. -/
def applyOp (t : BPlusTree) : Op → BPlusTree
  | Op.ins k v => (t.Insert k v).1
  | Op.upd k v => (t.Update k v).1
  | Op.del k => (t.Delete k).1

/-- Apply a sequence of mutating calls from left to right. -/
def applyOps (t : BPlusTree) : List Op → BPlusTree
  | [] => t
  | o :: rest => applyOps (applyOp t o) rest

/-- The tree NewBPlusTree 1 returns: order 1, one nil key and value slot. -/
def freshTree1 : BPlusTree :=
  { order := 1, root := node.leafNode 1 [none] [none] none }

/-- An order-5 leaf tree holding keys 1, 3, 5, 7, 9 with values 10..90. -/
def rangeTree : BPlusTree :=
  { order := 5,
    root := node.leafNode 5
      [some [1], some [3], some [5], some [7], some [9]]
      [some [10], some [30], some [50], some [70], some [90]] none }

/-- An order-1 leaf tree holding the single pair (key [1], value [2]). -/
def oneEntryTree : BPlusTree :=
  { order := 1, root := node.leafNode 1 [some [1]] [some [2]] none }

theorem node_Insert_eq (n : node) (k : Key) (v : Value) : n.Insert k v = (n, none) := by
  cases n <;> rfl

theorem node_Update_eq (n : node) (k : Key) (v : Value) : n.Update k v = (n, none) := by
  cases n <;> rfl

theorem node_Delete_eq (n : node) (k : Key) : n.Delete k = (n, none) := by
  cases n <;> rfl

theorem tree_Insert_eq (t : BPlusTree) (k : Key) (v : Value) : t.Insert k v = (t, none) := by
  cases t with
  | mk o r => simp [BPlusTree.Insert, node_Insert_eq]

theorem tree_Update_eq (t : BPlusTree) (k : Key) (v : Value) : t.Update k v = (t, none) := by
  cases t with
  | mk o r => simp [BPlusTree.Update, node_Update_eq]

theorem tree_Delete_eq (t : BPlusTree) (k : Key) : t.Delete k = (t, none) := by
  cases t with
  | mk o r => simp [BPlusTree.Delete, node_Delete_eq]

theorem applyOp_eq (t : BPlusTree) (o : Op) : applyOp t o = t := by
  cases o <;> simp [applyOp, tree_Insert_eq, tree_Update_eq, tree_Delete_eq]

theorem applyOps_eq (t : BPlusTree) (ops : List Op) : applyOps t ops = t := by
  induction ops with
  | nil => rfl
  | cons o rest ih => rw [applyOps, applyOp_eq, ih]

theorem node_GetKeys_leaf (o : Int) (ks : List (Option Key)) (ps : List (Option Value))
    (nx : Option node) :
    node.GetKeys (node.leafNode o ks ps nx) = (leafCollectKeys ks, none) := by
  simp [node.GetKeys]

theorem node_GetValues_leaf (o : Int) (ks : List (Option Key)) (ps : List (Option Value))
    (nx : Option node) :
    node.GetValues (node.leafNode o ks ps nx) = (leafCollectValues ps, none) := by
  simp [node.GetValues]

theorem leafCollectKeys_replicate (m : Nat) :
    leafCollectKeys (List.replicate m none) = [] := by
  cases m <;> rfl

theorem leafCollectValues_replicate (m : Nat) :
    leafCollectValues (List.replicate m none) = [] := by
  cases m <;> rfl

/-- C1: the insert/search round trip fails on the code: on the fresh order-1
tree, inserting key [0] with value [1] and then searching key [0] yields nil
instead of the associated value [1], because Insert stores nothing and Search
always returns nil. -/
theorem C1_roundTrip_fails :
    (NewBPlusTree 1).map (fun t => ((t.Insert [0] [1]).1.Search [0]).1) = some none := rfl

/-- C2: range search fails on the code: rangeTree holds exactly the keys
1, 3, 5, 7, 9 (as GetKeys reports), yet SearchRange([2],[7]) returns the
empty sequence instead of the three values for keys 3, 5 and 7, because
SearchRange always returns nil. -/
theorem C2_searchRange_fails :
    rangeTree.GetKeys = ([[1], [3], [5], [7], [9]], none) ∧
    rangeTree.SearchRange [2] [7] = ([], none) := by
  constructor
  · show node.GetKeys _ = _
    rw [rangeTree, node_GetKeys_leaf]
    rfl
  · rfl

/-- C3: duplicate-key semantics fail on the code: after inserting ([1],[10])
and then ([1],[20]) into a fresh order-2 tree, SearchRange([1],[1]) is the
empty sequence instead of [[10],[20]] and Search([1]) is nil instead of [10],
because Insert stores nothing. -/
theorem C3_duplicates_fail :
    (NewBPlusTree 2).map (fun t =>
      ((((t.Insert [1] [10]).1.Insert [1] [20]).1.SearchRange [1] [1]).1,
        (((t.Insert [1] [10]).1.Insert [1] [20]).1.Search [1]).1)) =
      some ([], none) := rfl

/-- C4: delete fails on the code: deleting key [1] from the tree that holds
the pair ([1],[2]) leaves GetKeys unchanged at [[1]] instead of removing the
entry, because Delete mutates nothing. -/
theorem C4_delete_fails :
    ((oneEntryTree.Delete [1]).1.GetKeys) = ([[1]], none) := by
  rw [tree_Delete_eq]
  show node.GetKeys _ = _
  rw [oneEntryTree, node_GetKeys_leaf]
  rfl

/-- C5: update fails on the code: updating key [1] to value [9] in the tree
that holds the pair ([1],[2]) leaves GetValues unchanged at [[2]] instead of
overwriting the value, because Update mutates nothing.  The error result is
nil, as the claim says for the no-match half. -/
theorem C5_update_fails :
    ((oneEntryTree.Update [1] [9]).1.GetValues) = ([[2]], none) ∧
    (oneEntryTree.Update [1] [9]).2 = none := by
  constructor
  · rw [tree_Update_eq]
    show node.GetValues _ = _
    rw [oneEntryTree, node_GetValues_leaf]
    rfl
  · rw [tree_Update_eq]

/-- C6: every tree reachable from a freshly constructed tree by a sequence of
Insert, Update and Delete calls has a non-decreasing GetKeys sequence: the
stub operations leave the tree unchanged and a fresh tree has no keys, so
GetKeys is always the empty sequence, which is non-decreasing. -/
theorem C6_getKeys_sorted (order : Int) (t : BPlusTree) (ops : List Op)
    (h : NewBPlusTree order = some t) :
    nonDecreasing (applyOps t ops).GetKeys.1 = true := by
  rw [applyOps_eq]
  unfold NewBPlusTree at h
  split at h
  · exact Option.noConfusion h
  · injection h with h
    subst h
    show (nonDecreasing (node.GetKeys (newLeafNode order)).1) = true
    rw [newLeafNode, node_GetKeys_leaf, leafCollectKeys_replicate]
    rfl

/-- C6 instantiated: the tree reached from the fresh order-1 tree by an
insert followed by a delete has a non-decreasing key sequence. -/
theorem C6_witness :
    nonDecreasing (applyOps freshTree1 [Op.ins [0] [1], Op.del [0]]).GetKeys.1 = true :=
  C6_getKeys_sorted 1 freshTree1 [Op.ins [0] [1], Op.del [0]] rfl

/-- C7: construction with order < 1 fails fatally (no tree is returned), and
for every order >= 1 construction succeeds, Order() returns exactly the
configured order, and the order is unchanged by any sequence of mutating
calls. -/
theorem C7_order_config (order : Int) (ops : List Op) :
    (order < 1 → NewBPlusTree order = none) ∧
    (1 ≤ order →
      (NewBPlusTree order).map (fun t => (t.Order, (applyOps t ops).Order)) =
        some (order, order)) := by
  constructor
  · intro h
    unfold NewBPlusTree
    rw [if_pos (by omega)]
  · intro h
    unfold NewBPlusTree
    rw [if_neg (by omega)]
    simp [applyOps_eq, BPlusTree.Order]

/-- C7 instantiated: NewBPlusTree 0 aborts, and NewBPlusTree 2 yields a tree
whose Order is 2 before and after an insert. -/
theorem C7_witness :
    NewBPlusTree 0 = none ∧
    (NewBPlusTree 2).map (fun t => (t.Order, (applyOps t [Op.ins [1] [2]]).Order)) =
      some (2, 2) :=
  ⟨(C7_order_config 0 []).1 (by norm_num),
    (C7_order_config 2 [Op.ins [1] [2]]).2 (by norm_num)⟩

/-- C8: for every order >= 1, the freshly constructed tree has a leaf root and
GetKeys and GetValues both return the empty sequence with a nil error. -/
theorem C8_fresh_empty (order : Int) (h : 1 ≤ order) :
    (NewBPlusTree order).map (fun t => (t.root.isLeaf, t.GetKeys, t.GetValues)) =
      some (true, ([], none), ([], none)) := by
  unfold NewBPlusTree
  rw [if_neg (by omega)]
  show some (_, (node.GetKeys (newLeafNode order), node.GetValues (newLeafNode order))) = _
  rw [newLeafNode, node_GetKeys_leaf, node_GetValues_leaf,
    leafCollectKeys_replicate, leafCollectValues_replicate]
  rfl

/-- C8 instantiated at order 1. -/
theorem C8_witness :
    (NewBPlusTree 1).map (fun t => (t.root.isLeaf, t.GetKeys, t.GetValues)) =
      some (true, ([], none), ([], none)) :=
  C8_fresh_empty 1 (by norm_num)

/-- C9: every mutating call is an observable no-op: for every tree and all
arguments, Insert, Update and Delete return a nil error and return the tree
state exactly as it was, so every observation (GetKeys, GetValues, Search,
SearchRange, Order, the root) is unchanged. -/
theorem C9_mutators_noop (t : BPlusTree) (k : Key) (v : Value) :
    t.Insert k v = (t, none) ∧ t.Update k v = (t, none) ∧ t.Delete k = (t, none) :=
  ⟨tree_Insert_eq t k v, tree_Update_eq t k v, tree_Delete_eq t k⟩

/-- C9 instantiated on the fresh order-1 tree. -/
theorem C9_witness :
    freshTree1.Insert [0] [1] = (freshTree1, none) ∧
    freshTree1.Update [0] [1] = (freshTree1, none) ∧
    freshTree1.Delete [0] = (freshTree1, none) :=
  C9_mutators_noop freshTree1 [0] [1]

/-- C10: for every tree and every key, Search returns a nil value together
with a nil error; there is no distinguishable not-found indication. -/
theorem C10_search_nil (t : BPlusTree) (k : Key) : t.Search k = (none, none) := by
  cases t with
  | mk o r => cases r <;> rfl

/-- C10 instantiated on the fresh order-1 tree. -/
theorem C10_witness : freshTree1.Search [0] = (none, none) :=
  C10_search_nil freshTree1 [0]

end BPlus
